import Mathlib

/-!
Verification of the account-management form handlers (profile update,
password change, account withdrawal) of the carrot-challenge repository.

The three handlers (`updateProfile`, `updatePassword`, `withdrawUser`) are
embedded as pure Lean functions over an explicit environment `Env`
(session id, user table, the bcrypt collaborator, and storage-failure
flags).  Each handler returns its result value together with a trace of
the observable effects it issued (datastore reads and writes, session
destruction, cache invalidations), in the order the source issues them.
-/

set_option autoImplicit false

namespace Carrot

/-- A persistent user record (Prisma `User` model, fields used by the
handlers): unique `id`, unique `email`, unique `username`, `bio`, and
`password` holding a salted hash. -/
structure User where
  id : Nat
  email : String
  username : String
  bio : String
  password : String
  deriving DecidableEq, Repr

/-- A validation issue as zod records it: a path (field names) and a
message.  `flatten` groups issues by the head of their path. -/
structure Issue where
  path : List String
  message : String
  deriving DecidableEq, Repr

/-- An issue attached to a single named field. -/
def fieldIssue (f msg : String) : Issue := ⟨[f], msg⟩

/-- The `FormActionState` result type: a success `message`, per-field
`fieldErrors`, or general `formErrors`.  Each component is optional, since
zod's `flatten()` returns an object carrying both `fieldErrors` and
`formErrors` keys at once. -/
structure FormActionState where
  message : Option String := none
  fieldErrors : Option (List (String × String)) := none
  formErrors : Option (List String) := none
  deriving DecidableEq, Repr

/-- The field-level errors of an issue list: issues whose path is
nonempty, keyed by the head of the path (zod `flatten().fieldErrors`). -/
def fieldErrorsOf (issues : List Issue) : List (String × String) :=
  issues.filterMap fun i =>
    match i.path with
    | f :: _ => some (f, i.message)
    | [] => none

/-- The top-level errors of an issue list: messages of issues with an
empty path (zod `flatten().formErrors`). -/
def formErrorsOf (issues : List Issue) : List String :=
  (issues.filter fun i => i.path = []).map Issue.message

/-- Model of `result.error.flatten()`: the handler's return value on a
validation failure. -/
def flattenIssues (issues : List Issue) : FormActionState :=
  { fieldErrors := some (fieldErrorsOf issues)
    formErrors := some (formErrorsOf issues) }

/-- The observable effects a handler can issue, in source order. -/
inductive Event where
  /-- Call `db.user.findUnique({where: {id}})` (id is the session id,
  possibly absent). -/
  | findById (id : Option Nat)
  /-- Call `db.user.findUnique({where: {username}})` -/
  | findByUsername (u : String)
  /-- Call `db.user.findUnique({where: {email}})` -/
  | findByEmail (e : String)
  /-- Call `db.user.update({where: {id}, data})`, `data` as field/value
  pairs. -/
  | update (id : Option Nat) (data : List (String × String))
  /-- Call `db.user.delete({where: {id}})` -/
  | delete (id : Nat)
  /-- Call `bcrypt.compare(plaintext, digest)` -/
  | compare (plaintext digest : String)
  /-- Call `bcrypt.hash(plaintext, cost)` -/
  | hash (plaintext : String) (cost : Nat)
  /-- Call `session.destroy()` -/
  | sessionDestroy
  /-- Call `revalidateTag(tag)` -/
  | revalidateTag (tag : String)
  /-- Call `revalidatePath(path, kind)` -/
  | revalidatePath (path kind : String)
  deriving DecidableEq, Repr

/-- The environment of one invocation: the session, the datastore
contents, the hashing collaborator, the validation constants, and flags
describing whether the storage mutations raise. -/
structure Env where
  /-- Value of `session.id` from `getSession()` (absent for an
  unauthenticated request). -/
  sessionId : Option Nat
  /-- The user table. -/
  db : List User
  /-- Model of `bcrypt.compare`: does the plaintext match the digest? -/
  verify : String → String → Bool
  /-- Model of `bcrypt.hash plaintext cost`. -/
  hashFn : String → Nat → String
  /-- Value of `ACCOUNT_VALIDATION.MIN_LENGTH.USERNAME` (the constants
  module is not part of the sources; the value is left abstract). -/
  minUsername : Nat
  /-- Value of `ACCOUNT_VALIDATION.MIN_LENGTH.PASSWORD`. -/
  minPassword : Nat
  /-- Whether `db.user.update` raises a storage error. -/
  updateFails : Bool
  /-- Whether `db.user.delete` raises a storage error. -/
  deleteFails : Bool
  /-- Modelled from the spec: `getCurrentUsername()` (from `@/lib/user`,
  not among the sources) resolves the actor's current username, or
  nothing when none exists. -/
  currentUsername : Option String

/-- Model of `db.user.findUnique({where: {id}})`: point lookup by unique
id; an absent id finds nothing. -/
def findById (db : List User) : Option Nat → Option User
  | none => none
  | some i => db.find? fun u => u.id = i

/-- Model of `db.user.findUnique({where: {username}})`. -/
def findByUsername (db : List User) (uname : String) : Option User :=
  db.find? fun u => u.username = uname

/-- Model of `db.user.findUnique({where: {email}})`. -/
def findByEmail (db : List User) (e : String) : Option User :=
  db.find? fun u => u.email = e

/-! ### Validation constants

The messages referenced from `ACCOUNT_VALIDATION.ERROR_MESSAGES` live in a
constants module that is not among the sources; they are represented by
distinct placeholder strings (only their attachment points matter).
Messages written literally in the handler file are kept verbatim. -/

def emailRequiredMsg : String := "EMAIL.REQUIRED"
def emailInvalidFormatMsg : String := "EMAIL.INVALID_FORMAT"
def emailDuplicateMsg : String := "EMAIL.DUPLICATE"
def usernameRequiredMsg : String := "USERNAME.REQUIRED"
def usernameTooShortMsg : String := "USERNAME.TOO_SHORT"
def usernameDuplicateMsg : String := "USERNAME.DUPLICATE"
def passwordRequiredMsg : String := "PASSWORD.REQUIRED"
def passwordTooShortMsg : String := "PASSWORD.TOO_SHORT"
def passwordNoNumberMsg : String := "PASSWORD.NO_NUMBER"
def passwordConfirmMsg : String := "PASSWORD.CONFIRM"
def currentPasswordRequiredMsg : String := "현재 비밀번호를 입력해주세요"
def confirmRequiredMsg : String := "Required"
def profileSuccessMsg : String := "프로필이 성공적으로 변경되었습니다."
def profileErrorMsg : String := "프로필 변경 중 오류가 발생했습니다."
def passwordSuccessMsg : String := "비밀번호가 성공적으로 변경되었습니다."
def passwordErrorMsg : String := "비밀번호 변경 중 오류가 발생했습니다."
def loginRequiredMsg : String := "로그인이 필요합니다."
def userNotFoundMsg : String := "사용자를 찾을 수 없습니다."
def currentPasswordMismatchMsg : String := "현재 비밀번호가 일치하지 않습니다."
def withdrawPasswordRequiredMsg : String := "비밀번호를 입력해주세요."
def withdrawPasswordMismatchMsg : String := "비밀번호가 일치하지 않습니다."
def withdrawSuccessMsg : String := "회원 탈퇴가 완료되었습니다."
def withdrawErrorMsg : String := "회원 탈퇴 중 오류가 발생했습니다."

/-! ### JavaScript string primitives

Structurally recursive models of the JavaScript string operations the
schemas apply (`trim`, `toLowerCase`, splitting), so that every
definition evaluates inside the kernel. -/

/-- Leading whitespace removed. -/
def dropLeadingWs (l : List Char) : List Char :=
  match l with
  | [] => []
  | c :: rest => if c.isWhitespace then dropLeadingWs rest else c :: rest

/-- JavaScript `String.prototype.trim`. -/
def jsTrim (s : String) : String :=
  ⟨(dropLeadingWs (dropLeadingWs s.data.reverse).reverse)⟩

/-- JavaScript `String.prototype.toLowerCase` (ASCII letters). -/
def jsToLower (s : String) : String :=
  ⟨s.data.map Char.toLower⟩

/-- The chunks of a character list between occurrences of a separator. -/
def splitOnChar (sep : Char) : List Char → List (List Char)
  | [] => [[]]
  | x :: xs =>
    match splitOnChar sep xs with
    | [] => [[]]
    | grp :: rest => if x = sep then [] :: grp :: rest else (x :: grp) :: rest

/-! ### zod string checks -/

/-- Characters zod's email pattern admits in the local part. -/
def isLocalChar (c : Char) : Bool :=
  c.isAlphanum || c = '_' || c = Char.ofNat 39 || c = '+' || c = '-' || c = '.'

/-- Characters zod's email pattern admits as the final local-part
character. -/
def isLocalLastChar (c : Char) : Bool :=
  c.isAlphanum || c = '_' || c = '+' || c = '-'

/-- A non-final domain label: nonempty, alphanumeric first character,
alphanumeric or hyphen afterwards. -/
def isDomainLabel (l : List Char) : Bool :=
  match l with
  | [] => false
  | c :: rest => c.isAlphanum && rest.all fun d => d.isAlphanum || d = '-'

/-- Two adjacent dots somewhere in the character list. -/
def hasDoubledDot : List Char → Bool
  | a :: b :: rest => (a = '.' && b = '.') || hasDoubledDot (b :: rest)
  | _ => false

/-- zod's `.email()` check: `local@domain` with a nonempty local part from
the admitted character class, no leading dot, no doubled dot, a non-dot
final character, and a dotted domain whose final label is at least two
letters. -/
def zodEmailCheck (s : String) : Bool :=
  match splitOnChar '@' s.data with
  | [lcs, domain] =>
    (!lcs.isEmpty)
      && lcs.all isLocalChar
      && (match lcs with | c :: _ => c ≠ '.' | [] => false)
      && (match lcs.reverse with | c :: _ => isLocalLastChar c | [] => false)
      && !(hasDoubledDot lcs)
      && (match (splitOnChar '.' domain).reverse with
          | tld :: labels =>
            (!labels.isEmpty)
              && labels.all isDomainLabel
              && tld.length ≥ 2
              && tld.all Char.isAlpha
          | [] => false)
  | _ => false

/-- Pattern `ACCOUNT_VALIDATION.PATTERNS.CONTAINS_NUMBER`: at least one
digit. -/
def containsNumber (s : String) : Bool :=
  s.data.any Char.isDigit

/-! ### Profile-update schema -/

/-- The raw data `updateProfile` builds from the form: `email` and
`username` straight from `formData.get` (absent when the field is
missing), `bio` already coerced to a string by
`formData.get('bio')?.toString() || ''`. -/
structure ProfileInput where
  email : Option String
  username : Option String
  bio : String
  deriving DecidableEq, Repr

/-- The parsed profile data (after trims and lower-casing). -/
structure ParsedProfile where
  email : String
  username : String
  bio : String
  deriving DecidableEq, Repr

/-- The check issues of the `email` field chain
(`.email(msg).trim().toLowerCase()`): the format check runs on the raw
value, before the transforms. -/
def emailFieldIssues (raw : String) : List Issue :=
  if zodEmailCheck raw then [] else [fieldIssue "email" emailInvalidFormatMsg]

/-- The check issues of the `username` field chain (`.min(n,msg).trim()`):
the length check runs on the raw value, before the trim. -/
def usernameFieldIssues (minU : Nat) (raw : String) : List Issue :=
  if minU ≤ raw.length then [] else [fieldIssue "username" usernameTooShortMsg]

/-- The issues `profileUpdateSchema.superRefine` adds, together with the
datastore lookups it issues: fetch the actor's record, then look the new
username (resp. email) up only when it differs from the actor's current
value.  A refinement runs even over a value that failed a string check
(zod only skips refinements after a fatal, type-level failure), so this
takes the transformed field values directly. -/
def profileSuperRefine (env : Env) (email username : String) :
    List Issue × List Event :=
  let currentUser := findById env.db env.sessionId
  let usernameDiffers : Bool :=
    match currentUser with
    | some cu => username != cu.username
    | none => true
  let emailDiffers : Bool :=
    match currentUser with
    | some cu => email != cu.email
    | none => true
  let (unameIssues, unameEvents) :=
    if usernameDiffers then
      ((findByUsername env.db username).elim []
        (fun _ => [fieldIssue "username" usernameDuplicateMsg]),
       [Event.findByUsername username])
    else ([], [])
  let (emailIssues, emailEvents) :=
    if emailDiffers then
      ((findByEmail env.db email).elim []
        (fun _ => [fieldIssue "email" emailDuplicateMsg]),
       [Event.findByEmail email])
    else ([], [])
  (unameIssues ++ emailIssues,
   Event.findById env.sessionId :: unameEvents ++ emailEvents)

/-- Model of `profileUpdateSchema.safeParseAsync`: parse the three fields (a
missing field is a fatal `required_error`; failed string checks are
non-fatal), and when no field failed fatally run the `superRefine`
business rules.  Returns the outcome and the datastore lookups issued. -/
def profileParse (env : Env) (inp : ProfileInput) :
    Except (List Issue) ParsedProfile × List Event :=
  match inp.email, inp.username with
  | none, none =>
    (.error [fieldIssue "email" emailRequiredMsg,
             fieldIssue "username" usernameRequiredMsg], [])
  | none, some su =>
    (.error ([fieldIssue "email" emailRequiredMsg]
              ++ usernameFieldIssues env.minUsername su), [])
  | some se, none =>
    (.error (emailFieldIssues se ++ [fieldIssue "username" usernameRequiredMsg]),
     [])
  | some se, some su =>
    let fieldIssues := emailFieldIssues se ++ usernameFieldIssues env.minUsername su
    let emailVal := jsToLower (jsTrim se)
    let usernameVal := (jsTrim su)
    let (refineIssues, events) := profileSuperRefine env emailVal usernameVal
    let issues := fieldIssues ++ refineIssues
    (if issues.isEmpty then .ok ⟨emailVal, usernameVal, inp.bio⟩
     else .error issues,
     events)

/-! ### Password-update schema -/

/-- The raw data `updatePassword` builds from the form. -/
structure PasswordInput where
  currentPassword : Option String
  newPassword : Option String
  confirmPassword : Option String
  deriving DecidableEq, Repr

/-- The parsed password data. -/
structure ParsedPassword where
  currentPassword : String
  newPassword : String
  confirmPassword : String
  deriving DecidableEq, Repr

/-- Check issues of the `newPassword` chain
(`.min(n, TOO_SHORT).regex(CONTAINS_NUMBER, NO_NUMBER)`). -/
def newPasswordIssues (minP : Nat) (raw : String) : List Issue :=
  (if minP ≤ raw.length then [] else [fieldIssue "newPassword" passwordTooShortMsg])
    ++ (if containsNumber raw then [] else [fieldIssue "newPassword" passwordNoNumberMsg])

/-- Check issues of the `confirmPassword` chain (`.min(n, TOO_SHORT)`). -/
def confirmPasswordIssues (minP : Nat) (raw : String) : List Issue :=
  if minP ≤ raw.length then [] else [fieldIssue "confirmPassword" passwordTooShortMsg]

/-- The issues of a fully-present password input: the `newPassword` and
`confirmPassword` check issues, then the `.refine` issue comparing
`newPassword` with `confirmPassword` (attached to `confirmPassword`);
the refinement runs even over values that failed a non-fatal check. -/
def passwordAllIssues (minP : Nat) (n cf : String) : List Issue :=
  newPasswordIssues minP n ++ confirmPasswordIssues minP cf
    ++ (if n = cf then [] else [fieldIssue "confirmPassword" passwordConfirmMsg])

/-- Model of `passwordUpdateSchema.safeParse`: parse the three string fields (a
missing field is fatal), then — unless a fatal failure occurred — run the
`.refine` comparing `newPassword` with `confirmPassword`, attaching its
issue to `confirmPassword`. -/
def passwordParse (minP : Nat) (inp : PasswordInput) :
    Except (List Issue) ParsedPassword :=
  match inp.currentPassword, inp.newPassword, inp.confirmPassword with
  | some c, some n, some cf =>
    if passwordAllIssues minP n cf = [] then .ok ⟨c, n, cf⟩
    else .error (passwordAllIssues minP n cf)
  | c?, n?, cf? =>
    .error ((match c? with
          | some _ => []
          | none => [fieldIssue "currentPassword" currentPasswordRequiredMsg])
      ++ (match n? with
          | some n => newPasswordIssues minP n
          | none => [fieldIssue "newPassword" passwordRequiredMsg])
      ++ (match cf? with
          | some cf => confirmPasswordIssues minP cf
          | none => [fieldIssue "confirmPassword" confirmRequiredMsg]))

/-! ### `encodeURIComponent` -/

/-- Characters `encodeURIComponent` leaves unescaped. -/
def isUriUnreserved (c : Char) : Bool :=
  c.isAlphanum || c = '-' || c = '_' || c = '.' || c = '!' || c = '~'
    || c = '*' || c = Char.ofNat 39 || c = '(' || c = ')'

/-- An uppercase hexadecimal digit. -/
def hexDigitChar (n : Nat) : Char :=
  if n < 10 then Char.ofNat (48 + n) else Char.ofNat (55 + (n % 16))

/-- The UTF-8 bytes of a character. -/
def utf8Bytes (c : Char) : List Nat :=
  let n := c.toNat
  if n < 0x80 then [n]
  else if n < 0x800 then
    [0xC0 + n / 64, 0x80 + n % 64]
  else if n < 0x10000 then
    [0xE0 + n / 4096, 0x80 + (n / 64) % 64, 0x80 + n % 64]
  else
    [0xF0 + n / 262144, 0x80 + (n / 4096) % 64, 0x80 + (n / 64) % 64, 0x80 + n % 64]

/-- A percent-escaped byte, uppercase hex. -/
def percentEscape (n : Nat) : List Char :=
  ['%', hexDigitChar (n / 16 % 16), hexDigitChar (n % 16)]

/-- JavaScript `encodeURIComponent`: unreserved characters pass through,
everything else is UTF-8 percent-escaped. -/
def encodeURIComponent (s : String) : String :=
  ⟨s.data.flatMap fun c =>
    if isUriUnreserved c then [c] else (utf8Bytes c).flatMap percentEscape⟩

/-! ### The handlers -/

/-- A handler invocation either returns a `FormActionState` or escapes
with an uncaught exception. -/
inductive HandlerOutcome where
  | ok (s : FormActionState)
  | thrown
  deriving DecidableEq, Repr

/-- Handler `updateProfile`: read the session, assemble the form data (a missing
`bio` is coerced to `''` by `formData.get('bio')?.toString() || ''`),
validate with `profileUpdateSchema`, and on success persist the three
fields as one update, then revalidate the profile tag and — only when the
username changed — the site layout, the old profile page (only for a
truthy old username), the new profile page, the tweets layout and the
search page.  A storage failure in the `try` block yields the generic
form error. -/
def updateProfile (env : Env) (form : String → Option String) :
    FormActionState × List Event :=
  let userId := env.sessionId
  let inp : ProfileInput := ⟨form "email", form "username", (form "bio").getD ""⟩
  match profileParse env inp with
  | (.error issues, tr) => (flattenIssues issues, tr)
  | (.ok d, tr) =>
    let oldUsername := env.currentUsername
    let newUsername := d.username
    let tr := tr ++ [Event.update userId
      [("email", d.email), ("username", d.username), ("bio", d.bio)]]
    if env.updateFails then
      ({ formErrors := some [profileErrorMsg] }, tr)
    else
      let tr := tr ++ [Event.revalidateTag "user-profile"]
      let usernameChanged : Bool :=
        match oldUsername with
        | some s => s != newUsername
        | none => true
      if usernameChanged then
        let oldPathEvents :=
          match oldUsername with
          | some s =>
            if s ≠ "" then
              [Event.revalidatePath ("/users/" ++ encodeURIComponent s) "page"]
            else []
          | none => []
        ({ message := some profileSuccessMsg },
         tr ++ [Event.revalidatePath "/" "layout"] ++ oldPathEvents
            ++ [Event.revalidatePath ("/users/" ++ encodeURIComponent newUsername) "page",
                Event.revalidatePath "/tweets" "layout",
                Event.revalidatePath "/search" "page"])
      else
        ({ message := some profileSuccessMsg }, tr)

/-- Handler `updatePassword`: read the session, validate with
`passwordUpdateSchema`, fetch the actor's record and dereference it with a
non-null assertion (`user!.password`) — outside any `try`, so a missing
record escapes as an uncaught exception — compare the current password,
and on a match hash the new password (cost 12) and persist it; only the
update sits in a `try`. -/
def updatePassword (env : Env) (form : String → Option String) :
    HandlerOutcome × List Event :=
  let userId := env.sessionId
  let inp : PasswordInput :=
    ⟨form "currentPassword", form "newPassword", form "confirmPassword"⟩
  match passwordParse env.minPassword inp with
  | .error issues => (.ok (flattenIssues issues), [])
  | .ok d =>
    let tr := [Event.findById userId]
    match findById env.db userId with
    | none => (.thrown, tr)
    | some u =>
      let tr := tr ++ [Event.compare d.currentPassword u.password]
      if !(env.verify d.currentPassword u.password) then
        (.ok { fieldErrors := some [("currentPassword", currentPasswordMismatchMsg)] }, tr)
      else
        let hashed := env.hashFn d.newPassword 12
        let tr := tr ++ [Event.hash d.newPassword 12,
                         Event.update userId [("password", hashed)]]
        if env.updateFails then
          (.ok { formErrors := some [passwordErrorMsg] }, tr)
        else
          (.ok { message := some passwordSuccessMsg }, tr)

/-- Handler `withdrawUser`: a falsy session id (`!userId`: absent, or the number
`0`) yields the login-required form error; a falsy password field yields a
field error before any datastore access; otherwise fetch the record
(absent record: generic not-found error), compare the password (mismatch:
field error), then delete the record and only afterwards destroy the
session.  A storage failure inside the `try` yields the generic form
error. -/
def withdrawUser (env : Env) (form : String → Option String) :
    FormActionState × List Event :=
  match env.sessionId with
  | none => ({ formErrors := some [loginRequiredMsg] }, [])
  | some userId =>
    if userId = 0 then ({ formErrors := some [loginRequiredMsg] }, [])
    else
      match form "password" with
      | none => ({ fieldErrors := some [("password", withdrawPasswordRequiredMsg)] }, [])
      | some p =>
        if p = "" then
          ({ fieldErrors := some [("password", withdrawPasswordRequiredMsg)] }, [])
        else
          let tr := [Event.findById (some userId)]
          match findById env.db (some userId) with
          | none => ({ formErrors := some [userNotFoundMsg] }, tr)
          | some u =>
            let tr := tr ++ [Event.compare p u.password]
            if !(env.verify p u.password) then
              ({ fieldErrors := some [("password", withdrawPasswordMismatchMsg)] }, tr)
            else
              let tr := tr ++ [Event.delete userId]
              if env.deleteFails then
                ({ formErrors := some [withdrawErrorMsg] }, tr)
              else
                ({ message := some withdrawSuccessMsg }, tr ++ [Event.sessionDestroy])

/-! ### Result-shape predicates -/

/-- How many of the three outcome variants of a result are populated: a
present `message`, a nonempty `fieldErrors` map, a nonempty `formErrors`
list. -/
def populatedCount (s : FormActionState) : Nat :=
  (match s.message with | some _ => 1 | none => 0)
    + (if s.fieldErrors.getD [] = [] then 0 else 1)
    + (if s.formErrors.getD [] = [] then 0 else 1)

/-- Exactly one of the three outcome variants is populated. -/
def exactlyOne (s : FormActionState) : Prop := populatedCount s = 1

/-! ### Sample data (used to instantiate hypotheses concretely) -/

/-- A sample bcrypt collaborator: the digest of `p` is `H:p`. -/
def sampleVerify (p d : String) : Bool := d = "H:" ++ p

/-- A sample bcrypt hash. -/
def sampleHash (p : String) (_cost : Nat) : String := "H:" ++ p

/-- A sample user record. -/
def aliceUser : User := ⟨1, "alice@x.com", "alice", "", "H:pw1"⟩

/-- A sample environment: Alice is logged in and stored. -/
def baseEnv : Env :=
  { sessionId := some 1, db := [aliceUser], verify := sampleVerify,
    hashFn := sampleHash, minUsername := 2, minPassword := 8,
    updateFails := false, deleteFails := false, currentUsername := some "alice" }

/-- Form data from an association list. -/
def formOf (l : List (String × String)) : String → Option String :=
  fun f => (l.find? fun p => p.1 = f).map Prod.snd

/-! ### Issue-shape lemmas -/

theorem emailFieldIssues_pathed (raw : String) :
    ∀ i ∈ emailFieldIssues raw, i.path ≠ [] := by
  intro i hi
  unfold emailFieldIssues at hi
  split at hi <;> simp_all [fieldIssue]

theorem usernameFieldIssues_pathed (minU : Nat) (raw : String) :
    ∀ i ∈ usernameFieldIssues minU raw, i.path ≠ [] := by
  intro i hi
  unfold usernameFieldIssues at hi
  split at hi <;> simp_all [fieldIssue]

theorem newPasswordIssues_pathed (minP : Nat) (raw : String) :
    ∀ i ∈ newPasswordIssues minP raw, i.path ≠ [] := by
  intro i hi
  unfold newPasswordIssues at hi
  rcases List.mem_append.1 hi with h | h <;>
    (split at h <;> simp_all [fieldIssue])

theorem confirmPasswordIssues_pathed (minP : Nat) (raw : String) :
    ∀ i ∈ confirmPasswordIssues minP raw, i.path ≠ [] := by
  intro i hi
  unfold confirmPasswordIssues at hi
  split at hi <;> simp_all [fieldIssue]

theorem profileSuperRefine_pathed (env : Env) (e u : String) :
    ∀ i ∈ (profileSuperRefine env e u).1, i.path ≠ [] := by
  intro i hi
  unfold profileSuperRefine at hi
  simp only at hi
  rcases List.mem_append.1 hi with h | h <;> split at h
  · rcases hfind : (findByUsername env.db u) with _ | w <;>
      simp_all [fieldIssue, Option.elim]
  · simp_all
  · rcases hfind : (findByEmail env.db e) with _ | w <;>
      simp_all [fieldIssue, Option.elim]
  · simp_all

/-- Flattening a nonempty list of field-pathed issues populates exactly
the `fieldErrors` variant. -/
theorem flattenIssues_exactlyOne (issues : List Issue)
    (h1 : issues ≠ []) (h2 : ∀ i ∈ issues, i.path ≠ []) :
    exactlyOne (flattenIssues issues) := by
  unfold exactlyOne populatedCount flattenIssues
  have hform : formErrorsOf issues = [] := by
    unfold formErrorsOf
    have : issues.filter (fun i => i.path = []) = [] := by
      rw [List.filter_eq_nil_iff]
      intro i hi
      simpa using h2 i hi
    rw [this]; rfl
  have hfield : fieldErrorsOf issues ≠ [] := by
    rcases issues with _ | ⟨i, rest⟩
    · exact absurd rfl h1
    · rcases hp : i.path with _ | ⟨f, ps⟩
      · exact absurd hp (h2 i (by simp))
      · unfold fieldErrorsOf
        simp [hp]
  simp [hform, hfield]

theorem passwordAllIssues_pathed (minP : Nat) (n cf : String) :
    ∀ i ∈ passwordAllIssues minP n cf, i.path ≠ [] := by
  intro i hi
  unfold passwordAllIssues at hi
  rcases List.mem_append.1 hi with hm | hm
  · rcases List.mem_append.1 hm with hm2 | hm2
    · exact newPasswordIssues_pathed _ _ i hm2
    · exact confirmPasswordIssues_pathed _ _ i hm2
  · split at hm
    · simp at hm
    · simp only [List.mem_singleton] at hm
      simp [hm, fieldIssue]

theorem passwordParse_error_issues (minP : Nat) (inp : PasswordInput)
    (issues : List Issue)
    (h : passwordParse minP inp = .error issues) :
    issues ≠ [] ∧ ∀ i ∈ issues, i.path ≠ [] := by
  obtain ⟨c?, n?, cf?⟩ := inp
  rcases c? with _ | c <;> rcases n? with _ | n <;> rcases cf? with _ | cf
  case some.some.some =>
    simp only [passwordParse] at h
    split at h
    · simp at h
    · rename_i hne
      simp only [Except.error.injEq] at h
      subst h
      exact ⟨hne, passwordAllIssues_pathed _ _ _⟩
  all_goals
    simp only [passwordParse, Except.error.injEq] at h
  all_goals subst h
  all_goals refine ⟨by simp, ?_⟩
  all_goals intro i hi
  all_goals simp only [List.mem_append] at hi
  all_goals
    rcases hi with (h | h) | h <;>
      first
      | exact (List.not_mem_nil i h).elim
      | exact newPasswordIssues_pathed _ _ i h
      | exact confirmPasswordIssues_pathed _ _ i h
      | (simp only [List.mem_singleton] at h
         simp [h, fieldIssue])

theorem profileParse_error_issues (env : Env) (inp : ProfileInput)
    (issues : List Issue) (tr : List Event)
    (h : profileParse env inp = (.error issues, tr)) :
    issues ≠ [] ∧ ∀ i ∈ issues, i.path ≠ [] := by
  obtain ⟨e?, u?, b⟩ := inp
  rcases e? with _ | se <;> rcases u? with _ | su
  · simp only [profileParse, Prod.mk.injEq, Except.error.injEq] at h
    obtain ⟨h1, -⟩ := h
    subst h1
    refine ⟨by simp, ?_⟩
    intro i hi
    simp [fieldIssue] at hi
    rcases hi with h | h <;> simp [h]
  · simp only [profileParse, Prod.mk.injEq, Except.error.injEq] at h
    obtain ⟨h1, -⟩ := h
    subst h1
    refine ⟨by simp, ?_⟩
    intro i hi
    rcases List.mem_append.1 hi with h | h
    · simp [fieldIssue] at h; simp [h]
    · exact usernameFieldIssues_pathed _ _ i h
  · simp only [profileParse, Prod.mk.injEq, Except.error.injEq] at h
    obtain ⟨h1, -⟩ := h
    subst h1
    refine ⟨by simp, ?_⟩
    intro i hi
    rcases List.mem_append.1 hi with h | h
    · exact emailFieldIssues_pathed _ i h
    · simp [fieldIssue] at h; simp [h]
  · rcases hsr : profileSuperRefine env (jsToLower (jsTrim se)) (jsTrim su) with ⟨ri, ev⟩
    simp only [profileParse, hsr] at h
    rw [Prod.ext_iff] at h
    obtain ⟨h1, h2⟩ := h
    dsimp at h1 h2
    split at h1
    · simp at h1
    · rename_i hne
      simp only [Except.error.injEq] at h1
      subst h1
      refine ⟨by simpa [List.isEmpty_iff] using hne, ?_⟩
      intro i hi
      rcases List.mem_append.1 hi with hmem | hmem
      · rcases List.mem_append.1 hmem with hm | hm
        · exact emailFieldIssues_pathed _ i hm
        · exact usernameFieldIssues_pathed _ _ i hm
      · have := profileSuperRefine_pathed env (jsToLower (jsTrim se)) (jsTrim su) i
        rw [hsr] at this
        exact this hmem

/-! ### Trace-shape lemmas -/

/-- Events the handlers issue against caches. -/
def isInvalidation : Event → Bool
  | .revalidateTag _ => true
  | .revalidatePath _ _ => true
  | _ => false

theorem profileSuperRefine_trace (env : Env) (e u : String) :
    (profileSuperRefine env e u).2 =
      Event.findById env.sessionId
        :: ((if (match findById env.db env.sessionId with
                 | some cu => u != cu.username
                 | none => true) then [Event.findByUsername u] else [])
          ++ (if (match findById env.db env.sessionId with
                  | some cu => e != cu.email
                  | none => true) then [Event.findByEmail e] else [])) := by
  unfold profileSuperRefine
  split <;> split <;> simp_all

theorem profileParse_trace (env : Env) (inp : ProfileInput) :
    ((inp.email = none ∨ inp.username = none) ∧ (profileParse env inp).2 = []) ∨
    ∃ se su, inp.email = some se ∧ inp.username = some su ∧
      (profileParse env inp).2 = (profileSuperRefine env (jsToLower (jsTrim se)) (jsTrim su)).2 := by
  obtain ⟨e?, u?, b⟩ := inp
  rcases e? with _ | se <;> rcases u? with _ | su
  · exact Or.inl ⟨Or.inl rfl, rfl⟩
  · exact Or.inl ⟨Or.inl rfl, rfl⟩
  · exact Or.inl ⟨Or.inr rfl, rfl⟩
  · right
    refine ⟨se, su, rfl, rfl, ?_⟩
    rcases hsr : profileSuperRefine env (jsToLower (jsTrim se)) (jsTrim su) with ⟨ri, ev⟩
    simp only [profileParse, hsr]

/-- Every event of the validation phase appears in the handler's trace. -/
theorem parse_trace_sub_updateProfile (env : Env) (form : String → Option String)
    (ev : Event)
    (hev : ev ∈ (profileParse env ⟨form "email", form "username",
        (form "bio").getD ""⟩).2) :
    ev ∈ (updateProfile env form).2 := by
  rcases hp : profileParse env ⟨form "email", form "username", (form "bio").getD ""⟩
    with ⟨res, tr⟩
  rw [hp] at hev
  rcases res with issues | d <;> simp only [updateProfile, hp]
  · exact hev
  · split
    · simp [hev]
    · split <;> simp [hev]

/-- Events that mutate the store or notify caches (everything the success
path of `updateProfile` appends after validation). -/
def isMutationOrInvalidation : Event → Bool
  | .update _ _ => true
  | .revalidateTag _ => true
  | .revalidatePath _ _ => true
  | _ => false

/-- The handler's trace is the validation trace followed by mutation and
invalidation events only. -/
theorem updateProfile_trace_decomp (env : Env) (form : String → Option String) :
    ∃ rest, (updateProfile env form).2 =
      (profileParse env ⟨form "email", form "username", (form "bio").getD ""⟩).2 ++ rest
      ∧ rest.all isMutationOrInvalidation = true := by
  rcases hp : profileParse env ⟨form "email", form "username", (form "bio").getD ""⟩
    with ⟨res, tr⟩
  rcases res with issues | d
  · exact ⟨[], by simp [updateProfile, hp], rfl⟩
  · by_cases hf : env.updateFails
    · refine ⟨[Event.update env.sessionId
        [("email", d.email), ("username", d.username), ("bio", d.bio)]], ?_, ?_⟩
      · simp [updateProfile, hp, hf]
      · simp [isMutationOrInvalidation]
    · rcases hcu : env.currentUsername with _ | s
      · refine ⟨[Event.update env.sessionId
            [("email", d.email), ("username", d.username), ("bio", d.bio)],
          Event.revalidateTag "user-profile",
          Event.revalidatePath "/" "layout",
          Event.revalidatePath ("/users/" ++ encodeURIComponent d.username) "page",
          Event.revalidatePath "/tweets" "layout",
          Event.revalidatePath "/search" "page"], ?_, ?_⟩
        · simp [updateProfile, hp, hf, hcu]
        · simp [isMutationOrInvalidation]
      · by_cases hsame : s = d.username
        · refine ⟨[Event.update env.sessionId
              [("email", d.email), ("username", d.username), ("bio", d.bio)],
            Event.revalidateTag "user-profile"], ?_, ?_⟩
          · simp [updateProfile, hp, hf, hcu, hsame]
          · simp [isMutationOrInvalidation]
        · by_cases hempty : s = ""
          · refine ⟨[Event.update env.sessionId
                [("email", d.email), ("username", d.username), ("bio", d.bio)],
              Event.revalidateTag "user-profile",
              Event.revalidatePath "/" "layout",
              Event.revalidatePath ("/users/" ++ encodeURIComponent d.username) "page",
              Event.revalidatePath "/tweets" "layout",
              Event.revalidatePath "/search" "page"], ?_, ?_⟩
            · subst hempty
              simp [updateProfile, hp, hf, hcu, hsame]
            · simp [isMutationOrInvalidation]
          · refine ⟨[Event.update env.sessionId
                [("email", d.email), ("username", d.username), ("bio", d.bio)],
              Event.revalidateTag "user-profile",
              Event.revalidatePath "/" "layout",
              Event.revalidatePath ("/users/" ++ encodeURIComponent s) "page",
              Event.revalidatePath ("/users/" ++ encodeURIComponent d.username) "page",
              Event.revalidatePath "/tweets" "layout",
              Event.revalidatePath "/search" "page"], ?_, ?_⟩
            · simp [updateProfile, hp, hf, hcu, hsame, hempty]
            · simp [isMutationOrInvalidation]

/-- C1: with an authenticated actor, a non-empty password, an existing
record and a matching password, `withdrawUser` deletes the record first
and destroys the session only after the delete succeeds, returning the
success message; when the delete fails it returns the generic form error
and never invokes `session.destroy`. -/
theorem withdrawUser_delete_then_destroy (env : Env) (form : String → Option String)
    (uid : Nat) (p : String) (u : User)
    (hsid : env.sessionId = some uid) (h0 : uid ≠ 0)
    (hp : form "password" = some p) (hpne : p ≠ "")
    (hu : findById env.db (some uid) = some u)
    (hv : env.verify p u.password = true) :
    (env.deleteFails = false →
      (withdrawUser env form).1 = { message := some withdrawSuccessMsg } ∧
      (withdrawUser env form).2 =
        [Event.findById (some uid), Event.compare p u.password,
         Event.delete uid, Event.sessionDestroy]) ∧
    (env.deleteFails = true →
      (withdrawUser env form).1 = { formErrors := some [withdrawErrorMsg] } ∧
      Event.sessionDestroy ∉ (withdrawUser env form).2) := by
  constructor <;> intro hd <;>
    simp [withdrawUser, hsid, h0, hp, hpne, hu, hv, hd]

theorem withdrawUser_delete_then_destroy_witness :
    (withdrawUser baseEnv (formOf [("password", "pw1")])).1 =
        { message := some withdrawSuccessMsg } ∧
      (withdrawUser { baseEnv with deleteFails := true }
          (formOf [("password", "pw1")])).1 =
        { formErrors := some [withdrawErrorMsg] } :=
  ⟨((withdrawUser_delete_then_destroy baseEnv (formOf [("password", "pw1")])
      1 "pw1" aliceUser rfl (by decide) rfl (by decide) rfl (by decide)).1 rfl).1,
   ((withdrawUser_delete_then_destroy { baseEnv with deleteFails := true }
      (formOf [("password", "pw1")])
      1 "pw1" aliceUser rfl (by decide) rfl (by decide) rfl (by decide)).2 rfl).1⟩

/-- C8: with an authenticated actor and an empty or absent password form
field, `withdrawUser` returns a field error on `password` and issues no
datastore access at all. -/
theorem withdrawUser_empty_password_no_read (env : Env) (form : String → Option String)
    (uid : Nat) (hsid : env.sessionId = some uid) (h0 : uid ≠ 0)
    (hp : form "password" = none ∨ form "password" = some "") :
    (withdrawUser env form).1 =
      { fieldErrors := some [("password", withdrawPasswordRequiredMsg)] } ∧
    (withdrawUser env form).2 = [] := by
  rcases hp with hp | hp <;> simp [withdrawUser, hsid, h0, hp]

theorem withdrawUser_empty_password_no_read_witness :
    (withdrawUser baseEnv (formOf [("password", "")])).1 =
      { fieldErrors := some [("password", withdrawPasswordRequiredMsg)] } ∧
    (withdrawUser baseEnv (formOf [("password", "")])).2 = [] :=
  withdrawUser_empty_password_no_read baseEnv (formOf [("password", "")])
    1 rfl (by decide) (Or.inr rfl)

/-- C4: when schema validation passes but the supplied current password
does not match the stored hash, `updatePassword` returns a field error on
`currentPassword` and performs no mutation: neither the update nor the
new-hash computation appears in the trace. -/
theorem updatePassword_mismatch_no_mutation (env : Env) (form : String → Option String)
    (d : ParsedPassword) (u : User)
    (hparse : passwordParse env.minPassword
      ⟨form "currentPassword", form "newPassword", form "confirmPassword"⟩ = .ok d)
    (hu : findById env.db env.sessionId = some u)
    (hv : env.verify d.currentPassword u.password = false) :
    (updatePassword env form).1 =
      .ok { fieldErrors := some [("currentPassword", currentPasswordMismatchMsg)] } ∧
    (∀ id data, Event.update id data ∉ (updatePassword env form).2) ∧
    (∀ pw cost, Event.hash pw cost ∉ (updatePassword env form).2) := by
  simp [updatePassword, hparse, hu, hv]

theorem updatePassword_mismatch_no_mutation_witness :
    (updatePassword baseEnv (formOf [("currentPassword", "wrongpw"),
        ("newPassword", "secret123"), ("confirmPassword", "secret123")])).1 =
      .ok { fieldErrors := some [("currentPassword", currentPasswordMismatchMsg)] } :=
  (updatePassword_mismatch_no_mutation baseEnv
    (formOf [("currentPassword", "wrongpw"), ("newPassword", "secret123"),
      ("confirmPassword", "secret123")])
    ⟨"wrongpw", "secret123", "secret123"⟩ aliceUser rfl rfl (by decide)).1

/-- C7: when the three password fields are present, `newPassword` passes
its own checks, `confirmPassword` passes its length check, and the two
differ, validation fails with exactly one field error, attached to
`confirmPassword`. -/
theorem updatePassword_confirm_mismatch_only (env : Env) (form : String → Option String)
    (c n cf : String)
    (hc : form "currentPassword" = some c)
    (hn : form "newPassword" = some n)
    (hcf : form "confirmPassword" = some cf)
    (hnv : newPasswordIssues env.minPassword n = [])
    (hcv : confirmPasswordIssues env.minPassword cf = [])
    (hne : n ≠ cf) :
    (updatePassword env form).1 =
      .ok { fieldErrors := some [("confirmPassword", passwordConfirmMsg)],
            formErrors := some [] } ∧
    (updatePassword env form).2 = [] := by
  have hall : passwordAllIssues env.minPassword n cf =
      [fieldIssue "confirmPassword" passwordConfirmMsg] := by
    simp [passwordAllIssues, hnv, hcv, hne]
  constructor <;>
    simp [updatePassword, passwordParse, hc, hn, hcf, hall,
      flattenIssues, fieldErrorsOf, formErrorsOf, fieldIssue]

theorem updatePassword_confirm_mismatch_only_witness :
    (updatePassword baseEnv (formOf [("currentPassword", "pw1"),
        ("newPassword", "secret123"), ("confirmPassword", "secret124")])).1 =
      .ok { fieldErrors := some [("confirmPassword", passwordConfirmMsg)],
            formErrors := some [] } :=
  (updatePassword_confirm_mismatch_only baseEnv
    (formOf [("currentPassword", "pw1"), ("newPassword", "secret123"),
      ("confirmPassword", "secret124")])
    "pw1" "secret123" "secret124" rfl rfl rfl (by decide) (by decide) (by decide)).1

/-- C9: when validation passes but no user record exists for the session
id (missing or stale session), `updatePassword` dereferences the absent
record (`user!.password`) outside any `try`, so it escapes with an
uncaught exception after issuing the lookup — there is no authentication
check, unlike `withdrawUser`, which returns the login-required form error
whenever the session id is absent. -/
theorem updatePassword_missing_user_throws (env : Env) (form : String → Option String)
    (d : ParsedPassword)
    (hparse : passwordParse env.minPassword
      ⟨form "currentPassword", form "newPassword", form "confirmPassword"⟩ = .ok d)
    (hu : findById env.db env.sessionId = none) :
    (updatePassword env form).1 = HandlerOutcome.thrown ∧
    Event.findById env.sessionId ∈ (updatePassword env form).2 ∧
    (∀ env2 form2, env2.sessionId = none →
      (withdrawUser env2 form2).1 = { formErrors := some [loginRequiredMsg] }) := by
  refine ⟨?_, ?_, ?_⟩
  · simp [updatePassword, hparse, hu]
  · simp [updatePassword, hparse, hu]
  · intro env2 form2 h2
    simp [withdrawUser, h2]

theorem updatePassword_missing_user_throws_witness :
    (updatePassword { baseEnv with db := [] } (formOf [("currentPassword", "pw1"),
        ("newPassword", "secret123"), ("confirmPassword", "secret123")])).1 =
      HandlerOutcome.thrown :=
  (updatePassword_missing_user_throws { baseEnv with db := [] }
    (formOf [("currentPassword", "pw1"), ("newPassword", "secret123"),
      ("confirmPassword", "secret123")])
    ⟨"pw1", "secret123", "secret123"⟩ rfl rfl).1

/-- When the (transformed) email equals the actor's stored email, no email
uniqueness lookup appears anywhere in the handler's trace. -/
theorem email_lookup_skipped_aux (env : Env) (form : String → Option String)
    (se : String) (cu : User)
    (he : form "email" = some se)
    (hcu : findById env.db env.sessionId = some cu)
    (heq : jsToLower (jsTrim se) = cu.email) :
    ∀ e, Event.findByEmail e ∉ (updateProfile env form).2 := by
  obtain ⟨rest, hdecomp, hall⟩ := updateProfile_trace_decomp env form
  intro e hmem
  rw [hdecomp] at hmem
  rcases List.mem_append.1 hmem with hm | hm
  · rcases profileParse_trace env ⟨form "email", form "username", (form "bio").getD ""⟩
      with ⟨-, h0⟩ | ⟨se2, su2, he2, hu2, htr⟩
    · rw [h0] at hm; exact List.not_mem_nil _ hm
    · dsimp only at he2
      rw [he] at he2
      obtain rfl : se2 = se := (Option.some.inj he2).symm
      rw [htr, profileSuperRefine_trace, hcu] at hm
      simp only [heq] at hm
      simp at hm
  · have := List.all_eq_true.1 hall _ hm
    simp [isMutationOrInvalidation] at this

/-- When the trimmed username equals the actor's stored username, no
username uniqueness lookup appears anywhere in the handler's trace. -/
theorem username_lookup_skipped_aux (env : Env) (form : String → Option String)
    (su : String) (cu : User)
    (hu : form "username" = some su)
    (hcu : findById env.db env.sessionId = some cu)
    (heq : (jsTrim su) = cu.username) :
    ∀ w, Event.findByUsername w ∉ (updateProfile env form).2 := by
  obtain ⟨rest, hdecomp, hall⟩ := updateProfile_trace_decomp env form
  intro w hmem
  rw [hdecomp] at hmem
  rcases List.mem_append.1 hmem with hm | hm
  · rcases profileParse_trace env ⟨form "email", form "username", (form "bio").getD ""⟩
      with ⟨-, h0⟩ | ⟨se2, su2, he2, hu2, htr⟩
    · rw [h0] at hm; exact List.not_mem_nil _ hm
    · dsimp only at hu2
      rw [hu] at hu2
      obtain rfl : su2 = su := (Option.some.inj hu2).symm
      rw [htr, profileSuperRefine_trace, hcu] at hm
      simp only [heq] at hm
      simp at hm
  · have := List.all_eq_true.1 hall _ hm
    simp [isMutationOrInvalidation] at this

/-- When both fields are present and the (transformed) email differs from
the actor's stored email, the email uniqueness lookup runs against the
transformed value. -/
theorem email_lookup_runs_aux (env : Env) (form : String → Option String)
    (se su : String) (cu : User)
    (he : form "email" = some se) (hu : form "username" = some su)
    (hcu : findById env.db env.sessionId = some cu)
    (hne : jsToLower (jsTrim se) ≠ cu.email) :
    Event.findByEmail (jsToLower (jsTrim se)) ∈ (updateProfile env form).2 := by
  apply parse_trace_sub_updateProfile
  rcases profileParse_trace env ⟨form "email", form "username", (form "bio").getD ""⟩
    with ⟨hmiss, -⟩ | ⟨se2, su2, he2, hu2, htr⟩
  · dsimp only at hmiss
    rcases hmiss with h | h
    · rw [he] at h; exact absurd h (by simp)
    · rw [hu] at h; exact absurd h (by simp)
  · dsimp only at he2 hu2
    rw [he] at he2
    obtain rfl : se2 = se := (Option.some.inj he2).symm
    rw [htr, profileSuperRefine_trace, hcu]
    simp [hne]

/-- C3: when the actor's record exists, a (trimmed, lowercased) email
equal to the stored email triggers no email uniqueness lookup, and a
trimmed username equal to the stored username triggers no username
uniqueness lookup, anywhere in the handler's trace. -/
theorem updateProfile_no_self_uniqueness (env : Env) (form : String → Option String)
    (se su : String) (cu : User)
    (he : form "email" = some se) (hu : form "username" = some su)
    (hcu : findById env.db env.sessionId = some cu) :
    (jsToLower (jsTrim se) = cu.email →
      ∀ e, Event.findByEmail e ∉ (updateProfile env form).2) ∧
    ((jsTrim su) = cu.username →
      ∀ w, Event.findByUsername w ∉ (updateProfile env form).2) :=
  ⟨fun heq => email_lookup_skipped_aux env form se cu he hcu heq,
   fun heq => username_lookup_skipped_aux env form su cu hu hcu heq⟩

theorem updateProfile_no_self_uniqueness_witness :
    Event.findByEmail "alice@x.com" ∉
      (updateProfile baseEnv (formOf [("email", "alice@x.com"),
        ("username", "alicia"), ("bio", "")])).2 :=
  (updateProfile_no_self_uniqueness baseEnv
    (formOf [("email", "alice@x.com"), ("username", "alicia"), ("bio", "")])
    "alice@x.com" "alicia" aliceUser rfl rfl rfl).1 (by decide) "alice@x.com"

/-- C6: for input email `A@X.com` and username `bob`, when the actor's
stored username is `bob` and the stored email differs from `a@x.com`, the
username uniqueness lookup is skipped and the email uniqueness lookup runs
against the lowercased `a@x.com`. -/
theorem updateProfile_concrete_scenario (env : Env) (form : String → Option String)
    (cu : User)
    (he : form "email" = some "A@X.com")
    (hu : form "username" = some "bob")
    (hcu : findById env.db env.sessionId = some cu)
    (hbob : cu.username = "bob")
    (hdiff : cu.email ≠ "a@x.com") :
    Event.findByEmail "a@x.com" ∈ (updateProfile env form).2 ∧
    ∀ w, Event.findByUsername w ∉ (updateProfile env form).2 := by
  constructor
  · have : (jsToLower (jsTrim "A@X.com") : String) = "a@x.com" := by decide
    have hrun := email_lookup_runs_aux env form "A@X.com" "bob" cu he hu hcu
      (by rw [this]; exact fun h => hdiff h.symm)
    rwa [this] at hrun
  · exact username_lookup_skipped_aux env form "bob" cu hu hcu
      (by rw [hbob]; decide)

def bobUser : User := ⟨1, "old@x.com", "bob", "", "H:pw1"⟩

theorem updateProfile_concrete_scenario_witness :
    Event.findByEmail "a@x.com" ∈
      (updateProfile { baseEnv with db := [bobUser], currentUsername := some "bob" }
        (formOf [("email", "A@X.com"), ("username", "bob"), ("bio", "")])).2 :=
  (updateProfile_concrete_scenario
    { baseEnv with db := [bobUser], currentUsername := some "bob" }
    (formOf [("email", "A@X.com"), ("username", "bob"), ("bio", "")])
    bobUser rfl rfl rfl rfl (by decide)).1

/-- A successful profile parse passes the (already coerced) `bio` value
through unchanged. -/
theorem profileParse_ok_bio (env : Env) (inp : ProfileInput) (d : ParsedProfile)
    (tr : List Event) (h : profileParse env inp = (.ok d, tr)) :
    d.bio = inp.bio := by
  obtain ⟨e?, u?, b⟩ := inp
  rcases e? with _ | se <;> rcases u? with _ | su <;>
    simp only [profileParse, Prod.mk.injEq] at h
  · exact absurd h.1 (by simp)
  · exact absurd h.1 (by simp)
  · exact absurd h.1 (by simp)
  · rcases hsr : profileSuperRefine env (jsToLower (jsTrim se)) (jsTrim su) with ⟨ri, ev⟩
    rw [hsr] at h
    obtain ⟨h1, -⟩ := h
    split at h1
    · simp only [Except.ok.injEq] at h1
      subst h1
      rfl
    · simp at h1

/-- C10: a missing `bio` form field is coerced to the empty string before
validation, so a successful profile update persists `bio` as the empty
string (overwriting any previously stored value). -/
theorem updateProfile_missing_bio_overwrites (env : Env) (form : String → Option String)
    (hbio : form "bio" = none)
    (hok : (updateProfile env form).1.message.isSome = true) :
    ∃ e u, Event.update env.sessionId [("email", e), ("username", u), ("bio", "")]
      ∈ (updateProfile env form).2 := by
  rcases hp : profileParse env ⟨form "email", form "username", (form "bio").getD ""⟩
    with ⟨res, tr⟩
  rcases res with issues | d
  · exfalso
    simp [updateProfile, hp, flattenIssues] at hok
  · have hb : d.bio = "" := by
      have hx := profileParse_ok_bio env _ d tr hp
      rw [hbio] at hx
      exact hx
    refine ⟨d.email, d.username, ?_⟩
    rw [← hb]
    simp only [updateProfile, hp]
    split
    · simp
    · split <;> simp

theorem updateProfile_missing_bio_overwrites_witness :
    ∃ e u, Event.update baseEnv.sessionId [("email", e), ("username", u), ("bio", "")]
      ∈ (updateProfile baseEnv
          (formOf [("email", "alice@x.com"), ("username", "alicia")])).2 :=
  updateProfile_missing_bio_overwrites baseEnv
    (formOf [("email", "alice@x.com"), ("username", "alicia")]) rfl (by decide)

/-- The validation phase issues no cache invalidations. -/
theorem profileParse_trace_no_invalidations (env : Env) (inp : ProfileInput) :
    (profileParse env inp).2.filter isInvalidation = [] := by
  rcases profileParse_trace env inp with ⟨-, h0⟩ | ⟨se, su, -, -, htr⟩
  · rw [h0]; rfl
  · rw [htr, profileSuperRefine_trace]
    split <;> split <;> rfl

/-- C5: on a successful profile update, if the username changed the
invalidations issued are exactly the general profile tag, the site
layout, the old profile page (only when an old username existed), the new
profile page, the feed listing layout and the search page, in that order;
if the username did not change, exactly the general profile tag. -/
theorem updateProfile_invalidations_exact (env : Env) (form : String → Option String)
    (d : ParsedProfile) (tr : List Event)
    (hp : profileParse env ⟨form "email", form "username", (form "bio").getD ""⟩
      = (.ok d, tr))
    (hf : env.updateFails = false)
    (hold : env.currentUsername ≠ some "") :
    (env.currentUsername ≠ some d.username →
      (updateProfile env form).2.filter isInvalidation =
        [Event.revalidateTag "user-profile", Event.revalidatePath "/" "layout"]
        ++ (match env.currentUsername with
            | some s => [Event.revalidatePath ("/users/" ++ encodeURIComponent s) "page"]
            | none => [])
        ++ [Event.revalidatePath ("/users/" ++ encodeURIComponent d.username) "page",
            Event.revalidatePath "/tweets" "layout",
            Event.revalidatePath "/search" "page"]) ∧
    (env.currentUsername = some d.username →
      (updateProfile env form).2.filter isInvalidation =
        [Event.revalidateTag "user-profile"]) := by
  have hparse0 : tr.filter isInvalidation = [] := by
    have hx := profileParse_trace_no_invalidations env
      ⟨form "email", form "username", (form "bio").getD ""⟩
    rw [hp] at hx
    exact hx
  constructor
  · intro hch
    rcases hcu : env.currentUsername with _ | s
    · simp [updateProfile, hp, hf, hcu, List.filter_append, hparse0, isInvalidation]
    · have hne : s ≠ d.username := by
        intro h; exact hch (by rw [hcu, h])
      have hs : s ≠ "" := by
        intro h; exact hold (by rw [hcu, h])
      simp [updateProfile, hp, hf, hcu, hne, hs, List.filter_append, hparse0,
        isInvalidation]
  · intro hsame
    simp [updateProfile, hp, hf, hsame, List.filter_append, hparse0, isInvalidation]

theorem updateProfile_invalidations_exact_witness :
    (updateProfile baseEnv
        (formOf [("email", "alice@x.com"), ("username", "alicia"), ("bio", "")])).2.filter
      isInvalidation =
      [Event.revalidateTag "user-profile", Event.revalidatePath "/" "layout",
       Event.revalidatePath "/users/alice" "page",
       Event.revalidatePath "/users/alicia" "page",
       Event.revalidatePath "/tweets" "layout",
       Event.revalidatePath "/search" "page"] :=
  (updateProfile_invalidations_exact baseEnv
    (formOf [("email", "alice@x.com"), ("username", "alicia"), ("bio", "")])
    ⟨"alice@x.com", "alicia", ""⟩
    [Event.findById (some 1), Event.findByUsername "alicia"]
    rfl rfl (by decide)).1 (by decide)

/-- C2: every invocation of each of the three handlers that returns at
all populates exactly one of the three outcome variants: a success
message, a nonempty field-error map, or a nonempty form-error list. -/
theorem handlers_exactly_one_outcome (env : Env) (form : String → Option String) :
    exactlyOne (updateProfile env form).1
      ∧ (∀ s, (updatePassword env form).1 = .ok s → exactlyOne s)
      ∧ exactlyOne (withdrawUser env form).1 := by
  refine ⟨?_, ?_, ?_⟩
  · rcases hp : profileParse env ⟨form "email", form "username", (form "bio").getD ""⟩
      with ⟨res, tr⟩
    rcases res with issues | d
    · obtain ⟨h1, h2⟩ := profileParse_error_issues env _ issues tr hp
      simp only [updateProfile, hp]
      exact flattenIssues_exactlyOne issues h1 h2
    · simp only [updateProfile, hp]
      split
      · simp [exactlyOne, populatedCount]
      · split <;> simp [exactlyOne, populatedCount]
  · intro s hs
    rcases hq : passwordParse env.minPassword
        ⟨form "currentPassword", form "newPassword", form "confirmPassword"⟩
      with issues | d
    · obtain ⟨h1, h2⟩ := passwordParse_error_issues env.minPassword _ issues hq
      simp only [updatePassword, hq, HandlerOutcome.ok.injEq] at hs
      subst hs
      exact flattenIssues_exactlyOne issues h1 h2
    · simp only [updatePassword, hq] at hs
      rcases hu : findById env.db env.sessionId with _ | u
      · rw [hu] at hs
        simp at hs
      · rw [hu] at hs
        dsimp only at hs
        split at hs
        · simp only [HandlerOutcome.ok.injEq] at hs
          subst hs
          simp [exactlyOne, populatedCount]
        · split at hs <;>
            (simp only [HandlerOutcome.ok.injEq] at hs
             subst hs
             simp [exactlyOne, populatedCount])
  · rcases hsid : env.sessionId with _ | uid
    · simp [withdrawUser, hsid, exactlyOne, populatedCount]
    · by_cases h0 : uid = 0
      · simp [withdrawUser, hsid, h0, exactlyOne, populatedCount]
      · rcases hpw : form "password" with _ | p
        · simp [withdrawUser, hsid, h0, hpw, exactlyOne, populatedCount]
        · by_cases hpe : p = ""
          · simp [withdrawUser, hsid, h0, hpw, hpe, exactlyOne, populatedCount]
          · rcases hu : findById env.db (some uid) with _ | u
            · simp [withdrawUser, hsid, h0, hpw, hpe, hu, exactlyOne, populatedCount]
            · by_cases hv : env.verify p u.password
              · by_cases hd : env.deleteFails
                · simp [withdrawUser, hsid, h0, hpw, hpe, hu, hv, hd,
                    exactlyOne, populatedCount]
                · simp [withdrawUser, hsid, h0, hpw, hpe, hu, hv, hd,
                    exactlyOne, populatedCount]
              · simp [withdrawUser, hsid, h0, hpw, hpe, hu, hv,
                  exactlyOne, populatedCount]

theorem handlers_exactly_one_outcome_witness :
    exactlyOne (withdrawUser baseEnv (formOf [("password", "pw1")])).1 :=
  (handlers_exactly_one_outcome baseEnv (formOf [("password", "pw1")])).2.2
